import Mathlib

/-!
Verification of the Elecraft clone-mode driver (`chirp/drivers/elecraft.py`).

The definitions below are a shallow embedding of the driver's data model and
operations: bytes are `Nat`, byte buffers are `List Nat`, the serial transport
is a function from requests to response bytes, and fallible Python code
(dict/list lookups that may raise) returns `Option`.
-/

set_option maxRecDepth 400000

namespace Elecraft

/-- Constant `MINMEM` from the driver. -/
def MINMEM : Nat := 0x0000

/-- Constant `MAXMEM` from the driver. -/
def MAXMEM : Nat := 0x4140

/-- Constant `MEMLEN` from the driver. -/
def MEMLEN : Nat := 0x40

/-- Constant `MEM_START` from the driver: base address of the 200 channel slots. -/
def MEM_START : Nat := 0x0C00

/-- Constant `MEM_LEN` from the driver. -/
def MEM_LEN : Nat := 0x40

/-- Read opcode `READ_CMD = "ER"`. -/
def READ_CMD : String := "ER"

/-- Number of regular memories (`NMEMS`). -/
def NMEMS : Nat := 100

/-- Number of special memories (`NSPLS`). -/
def NSPLS : Nat := 100

/-- Offset step size in Hz (`OSTEP`). -/
def OSTEP : Nat := 20000

/-- Maximum raw offset field value (`LOFFSET`). -/
def LOFFSET : Nat := 0xFA

/-- The all-0xFF five-byte sentinel `FF5`. -/
def FF5 : List Nat := [0xff, 0xff, 0xff, 0xff, 0xff]

/-- `radio_to_freq`: turns the five frequency bytes into an integer frequency
in Hz; the all-0xFF sentinel decodes to 0. -/
def radio_to_freq (b : List Nat) : Nat :=
  let freq := b.getD 0 0 * 1000000 + b.getD 1 0 * 10000 + b.getD 2 0 * 100 +
    b.getD 3 0 * 10 + b.getD 4 0
  if b ≠ FF5 then freq else 0

/-- `freq_to_radio`: turns an integer frequency in Hz into the driver's
five-byte digit-group encoding; frequency 0 encodes to the all-0xFF sentinel. -/
def freq_to_radio (f : Nat) : List Nat :=
  let bm := f / 1000000
  let f1 := f - bm * 1000000
  let bT := f1 / 10000
  let f2 := f1 - bT * 10000
  let bt := f2 / 100
  let f3 := f2 - bt * 100
  let bh := f3 / 10
  let f4 := f3 - bh * 10
  let bo := f4
  if f ≠ 0 then [bm, bT, bt, bh, bo] else FF5

/-- The mode table `ALLMODESd`: mode name to
[mode, submode, lsb, rev, flag4], in the source's insertion order. -/
def ALLMODESd : List (String × List Nat) := [
  ("AM",          [4, 0, 0, 0, 0]),
  ("AM-S/USB",    [4, 0, 0, 0, 0x0a]),
  ("AM-S/LSB",    [4, 0, 0, 0, 0x08]),
  ("CW",          [0, 0, 0, 0, 0]),
  ("CW-Rev",      [0, 0, 0, 1, 0]),
  ("DATA A",      [3, 0, 1, 0, 0]),
  ("DATA A/Rev",  [3, 0, 0, 0, 0]),
  ("FM",          [5, 0, 0, 0, 0]),
  ("LSB",         [1, 0, 0, 0, 0]),
  ("USB",         [2, 0, 0, 0, 0]),
  ("AFSK-A",      [3, 2, 1, 0, 0]),
  ("FSK-D",       [3, 4, 1, 0, 0]),
  ("PSK-D",       [3, 6, 1, 0, 0]),
  ("DATA-A/Rev",  [3, 0, 0, 0, 0]),
  ("AFSK-A/Rev",  [3, 2, 0, 0, 0]),
  ("FSK-D/Rev",   [3, 4, 0, 0, 0]),
  ("PSK-D/Rev",   [3, 6, 0, 0, 0])]

/-- `ALLMODES = list(ALLMODESd.keys())`: just the mode names. -/
def ALLMODES : List String := ALLMODESd.map Prod.fst

/-- `list(ALLMODESd.values())`: just the 5-tuples, in table order. -/
def mode_values : List (List Nat) := ALLMODESd.map Prod.snd

/-- Encoding a mode name: the dict access `ALLMODESd[name]` used by
`set_memory`; `none` models the `KeyError` for an unknown name. -/
def encode_mode (m : String) : Option (List Nat) := ALLMODESd.lookup m

/-- Decoding a 5-tuple: `list(ALLMODESd.values()).index(t)` followed by
`ALLMODES[i]`, as `get_memory` does; `none` models the `ValueError` for a
tuple absent from the table. -/
def decode_mode (t : List Nat) : Option String :=
  (mode_values.findIdx? (fun v => v == t)).bind (fun i => ALLMODES.get? i)

/-- Claim C5: for every frequency f in [0, 999999999], decoding the encoding
of f yields f back, encoding 0 yields the all-0xFF sentinel, and the sentinel
decodes to 0. -/
theorem c5_freq_roundtrip (f : Nat) (h : f ≤ 999999999) :
    radio_to_freq (freq_to_radio f) = f ∧
    freq_to_radio 0 = FF5 ∧ radio_to_freq FF5 = 0 := by
  refine ⟨?_, by decide, by decide⟩
  by_cases hf : f = 0
  · subst hf; decide
  · have hbT : (f - f / 1000000 * 1000000) / 10000 ≤ 99 := by omega
    simp only [freq_to_radio, radio_to_freq]
    rw [if_pos hf]
    rw [if_pos]
    · simp only [List.getD, List.get?, Option.getD]
      omega
    · simp only [FF5, ne_eq, List.cons.injEq, not_and]
      intro _ h2
      omega

/-- Witness for C5 at the concrete frequency 14074500 Hz. -/
theorem c5_freq_roundtrip_witness :
    14074500 ≤ 999999999 ∧
    (radio_to_freq (freq_to_radio 14074500) = 14074500 ∧
     freq_to_radio 0 = FF5 ∧ radio_to_freq FF5 = 0) :=
  ⟨by decide, c5_freq_roundtrip 14074500 (by decide)⟩

/-- Counterexample to claim C3: the table is not a bijection. "DATA-A/Rev"
encodes to [3,0,0,0,0], but that tuple decodes (first table match) to
"DATA A/Rev", a different name. -/
theorem c3_claim_counterexample :
    encode_mode "DATA-A/Rev" = some [3, 0, 0, 0, 0] ∧
    decode_mode [3, 0, 0, 0, 0] = some "DATA A/Rev" ∧
    ¬ ((encode_mode "DATA-A/Rev").bind decode_mode = some "DATA-A/Rev") := by
  refine ⟨by decide, by decide, by decide⟩

/-- Claim C3 as amended: for every mode name other than "DATA-A/Rev" (which
shares its 5-tuple with "DATA A/Rev"), encoding then decoding yields the
name back. -/
theorem c3_mode_roundtrip_amended :
    ∀ m ∈ ALLMODES, m ≠ "DATA-A/Rev" →
      (encode_mode m).bind decode_mode = some m := by
  decide

/-- Witness for the amended C3 at the mode name "USB". -/
theorem c3_mode_roundtrip_amended_witness :
    ("USB" ∈ ALLMODES ∧ "USB" ≠ "DATA-A/Rev") ∧
    (encode_mode "USB").bind decode_mode = some "USB" :=
  ⟨⟨by decide, by decide⟩,
   c3_mode_roundtrip_amended "USB" (by decide) (by decide)⟩

/-- Fill-byte test used by the emptiness check: a byte equal to 0xFF or 0x00. -/
def is_fill (b : Nat) : Bool := b == 0xFF || b == 0x00

/-- `bytes.rstrip(b'\xFF\x00')`: remove the maximal trailing run of bytes
equal to 0xFF or 0x00. -/
def rstrip_ff00 (l : List Nat) : List Nat :=
  (l.reverse.dropWhile is_fill).reverse

/-- The `_nulr` emptiness test from `get_memory`:
`len(window.rstrip(b'\xFF\x00')) <= 4`. -/
def nulr (w : List Nat) : Bool := decide ((rstrip_ff00 w).length ≤ 4)

/-- Emptiness as the spec states it (for comparison with `nulr`): the count
of bytes that are neither 0x00 nor 0xFF is at most 4. -/
def spec_count_empty (w : List Nat) : Bool :=
  decide ((w.filter (fun b => !is_fill b)).length ≤ 4)

/-- A 64-byte window differing from all-0xFF in exactly its last four bytes. -/
def c4_window : List Nat := List.replicate 60 0xFF ++ [1, 1, 1, 1]

/-- Counterexample to claim C4: `c4_window` differs from all-0xFF in exactly
4 bytes (so it has exactly 4 bytes that are neither 0x00 nor 0xFF, and the
claim calls it empty), yet the driver classifies it as not empty, because its
non-fill bytes sit at the end of the window. -/
theorem c4_claim_counterexample :
    c4_window.length = 64 ∧
    spec_count_empty c4_window = true ∧
    nulr c4_window = false := by
  refine ⟨by decide, by decide, by decide⟩

/-- Elements of `dropWhile` are elements of the list (helper). -/
theorem mem_of_mem_takeWhile {α : Type} (p : α → Bool) :
    ∀ (l : List α) (a : α), a ∈ l.takeWhile p → p a = true := by
  intro l
  induction l with
  | nil => intro a ha; simp [List.takeWhile] at ha
  | cons x xs ih =>
    intro a ha
    by_cases hx : p x = true
    · rw [List.takeWhile_cons_of_pos hx] at ha
      rcases List.mem_cons.mp ha with h | h
      · subst h; exact hx
      · exact ih a h
    · rw [List.takeWhile_cons_of_neg (by simpa using hx)] at ha
      simp at ha

/-- `dropWhile` never lengthens a list (helper). -/
theorem length_dropWhile_le_self {α : Type} (p : α → Bool) :
    ∀ (l : List α), (l.dropWhile p).length ≤ l.length := by
  intro l
  induction l with
  | nil => simp [List.dropWhile]
  | cons x xs ih =>
    by_cases hx : p x = true
    · rw [List.dropWhile_cons_of_pos hx]
      exact Nat.le_succ_of_le ih
    · rw [List.dropWhile_cons_of_neg (by simpa using hx)]

/-- `dropWhile` over an all-satisfying prefix skips the whole prefix
(helper). -/
theorem dropWhile_append_of_all {α : Type} (p : α → Bool) :
    ∀ (a b : List α), (∀ x ∈ a, p x = true) →
      (a ++ b).dropWhile p = b.dropWhile p := by
  intro a
  induction a with
  | nil => intro b _; rfl
  | cons x xs ih =>
    intro b h
    have hx : p x = true := h x (List.mem_cons_self x xs)
    rw [List.cons_append, List.dropWhile_cons_of_pos hx]
    exact ih b (fun y hy => h y (List.mem_cons_of_mem x hy))

/-- Claim C4 as amended: the driver classifies a slot window as empty iff at
most 4 bytes remain after removing the maximal trailing run of 0x00/0xFF
bytes — equivalently, iff the window is a prefix of at most 4 bytes followed
by a suffix consisting only of 0x00 and 0xFF bytes. Non-fill bytes before
the trailing fill run count toward the 4 even if they are 0x00/0xFF. -/
theorem c4_empty_characterization (w : List Nat) :
    nulr w = true ↔
      ∃ p s, w = p ++ s ∧ p.length ≤ 4 ∧ ∀ b ∈ s, b = 0xFF ∨ b = 0x00 := by
  constructor
  · intro h
    have hdecomp : rstrip_ff00 w ++ (w.reverse.takeWhile is_fill).reverse = w := by
      unfold rstrip_ff00
      rw [← List.reverse_append, List.takeWhile_append_dropWhile, List.reverse_reverse]
    refine ⟨rstrip_ff00 w, (w.reverse.takeWhile is_fill).reverse, hdecomp.symm, ?_, ?_⟩
    · simpa [nulr] using h
    · intro b hb
      rw [List.mem_reverse] at hb
      have := mem_of_mem_takeWhile is_fill w.reverse b hb
      simp only [is_fill, Bool.or_eq_true, beq_iff_eq] at this
      tauto
  · rintro ⟨p, s, rfl, hp, hs⟩
    have hall : ∀ x ∈ s.reverse, is_fill x = true := by
      intro x hx
      rw [List.mem_reverse] at hx
      have := hs x hx
      simp only [is_fill, Bool.or_eq_true, beq_iff_eq]
      tauto
    have : rstrip_ff00 (p ++ s) =
        ((p.reverse.dropWhile is_fill)).reverse := by
      unfold rstrip_ff00
      rw [List.reverse_append, dropWhile_append_of_all is_fill s.reverse p.reverse hall]
    rw [nulr, this]
    simp only [decide_eq_true_eq, List.length_reverse]
    calc (p.reverse.dropWhile is_fill).length ≤ p.reverse.length :=
          length_dropWhile_le_self is_fill p.reverse
      _ = p.length := List.length_reverse p
      _ ≤ 4 := hp

/-- Witness for the amended C4 at the all-0xFF window: it is empty and the
characterization produces its prefix/suffix decomposition. -/
theorem c4_empty_characterization_witness :
    ∃ p s, (List.replicate 64 0xFF : List Nat) = p ++ s ∧ p.length ≤ 4 ∧
      ∀ b ∈ s, b = 0xFF ∨ b = 0x00 :=
  (c4_empty_characterization (List.replicate 64 0xFF)).mp (by decide)

/-- Value of a lowercase hex-digit character (decode helper). -/
def hexVal (c : Char) : Nat :=
  if c.toNat ≥ 97 then c.toNat - 87 else c.toNat - 48

/-- `bytearray.fromhex`: decode a string of hex-digit pairs into bytes. -/
def fromHex : List Char → List Nat
  | a :: b :: rest => (hexVal a * 16 + hexVal b) :: fromHex rest
  | _ => []

/-- Python format `'{:04x}'`: lowercase hex, zero-padded to width 4. -/
def hex04 (n : Nat) : String :=
  let d := Nat.toDigits 16 n
  ⟨List.replicate (4 - d.length) '0' ++ d⟩

/-- Python format `'{:02x}'`: lowercase hex, zero-padded to width 2. -/
def hex02 (n : Nat) : String :=
  let d := Nat.toDigits 16 n
  ⟨List.replicate (2 - d.length) '0' ++ d⟩

/-- Python format `'{:2x}'`: lowercase hex, SPACE-padded to width 2 (this is
the format the driver uses for the checksum field). -/
def hex2sp (n : Nat) : String :=
  let d := Nat.toDigits 16 n
  ⟨List.replicate (2 - d.length) ' ' ++ d⟩

/-- The driver's checksum formula `((sum(bytes) - 1) & 0xFF) ^ 0xFF`, with
Python's wrap-around of `sum - 1` at sum = 0 made explicit. -/
def cmd_checksum (bs : List Nat) : Nat :=
  ((bs.sum + 255) % 256) ^^^ 0xFF

/-- `ElecraftRadio.sync_checksum`: checksum over all bytes of the hex string
except the last one. -/
def sync_checksum (hx : String) : Nat :=
  cmd_checksum (fromHex hx.toList).dropLast

/-- `_cmd_get_memory`: build the read command for a memory number. -/
def _cmd_get_memory (number : Nat) : String :=
  let address := MEM_START + number * MEM_LEN
  let message := hex04 address ++ hex02 MEM_LEN
  let checksum := cmd_checksum (fromHex message.toList)
  READ_CMD ++ message ++ hex2sp checksum

/-- Counterexample to claim C8: for memory number 150 (address 0x3180) the
checksum value is 0x0F and the `'{:2x}'` format renders it as `" f"` — a
space followed by one hex digit, not a 2-hex-digit field. -/
theorem c8_claim_counterexample :
    _cmd_get_memory 150 = "ER318040 f" ∧
    (_cmd_get_memory 150).data.contains ' ' = true := by
  refine ⟨by decide, by decide⟩

set_option maxRecDepth 40000 in
/-- Claim C8 as amended: for every slot number the read command is
`READ_CMD` followed by the address as a 4-hex-digit field, the length as a
2-hex-digit field ("40"), and the checksum `((sum of the address and length
bytes - 1) & 0xFF) ^ 0xFF` rendered in width-2 hex WITHOUT zero padding (a
space precedes the digit when the value is below 0x10); in particular for
address 0x0C00 and length 0x40 the checksum byte is 0xb4 and the frame is
the exact literal "ER0c0040b4". -/
theorem c8_read_command_amended :
    (∀ n, n < 213 →
      _cmd_get_memory n =
        READ_CMD ++ hex04 (MEM_START + n * MEM_LEN) ++ "40" ++
          hex2sp ((((MEM_START + n * MEM_LEN) / 256 +
                    (MEM_START + n * MEM_LEN) % 256 + 0x40 + 255) % 256) ^^^ 0xFF)) ∧
    _cmd_get_memory 0 = "ER0c0040b4" := by
  refine ⟨by decide, by decide⟩

/-- Witness for the amended C8 at slot 0 (address 0x0C00, length 0x40). -/
theorem c8_read_command_amended_witness :
    0 < 213 ∧
    _cmd_get_memory 0 =
      READ_CMD ++ hex04 (MEM_START + 0 * MEM_LEN) ++ "40" ++
        hex2sp ((((MEM_START + 0 * MEM_LEN) / 256 +
                  (MEM_START + 0 * MEM_LEN) % 256 + 0x40 + 255) % 256) ^^^ 0xFF) :=
  ⟨by decide, c8_read_command_amended.1 0 (by decide)⟩

/-- `VALID_CHARS`: the 42-character device alphabet
(space, A-Z, 0-9, and the five extra symbols). -/
def VALID_CHARS : String := " ABCDEFGHIJKLMNOPQRSTUVWXYZ0123456789*+/@_"

/-- The `KX2A` translation table: device byte to display character; bytes
beyond the alphabet decode to the padding character. -/
def KX2A (b : Nat) : Char := VALID_CHARS.data.getD b '.'

/-- The `A2KX` translation table: character to device byte, per the
`bytes.maketrans` construction (the padding character maps to its last
occurrence; characters outside both map to themselves). -/
def A2KX (c : Char) : Nat :=
  match VALID_CHARS.data.indexOf? c with
  | some i => i
  | none => if c = '.' then 255 else c.toNat

/-- Python `str.rstrip()` restricted to spaces, the only whitespace
character the device charset produces. -/
def rstripSpaces (s : String) : String :=
  ⟨(s.data.reverse.dropWhile (fun c => c == ' ')).reverse⟩

/-- Python `str.strip('\xFF')`: remove leading and trailing 0xFF
characters. -/
def stripFFchar (l : List Char) : List Char :=
  ((l.dropWhile (fun c => c == Char.ofNat 255)).reverse.dropWhile
    (fun c => c == Char.ofNat 255)).reverse

/-- Modelled from the spec: `chirp_common.TONES` lives outside src/; the
spec describes indices 1..49 as mapping onto an ascending CTCSS frequency
table, here the standard 50-entry CTCSS list in tenths of Hz. -/
def TONES : List Nat := [670, 693, 719, 744, 770, 797, 825, 854, 885, 915,
  948, 974, 1000, 1035, 1072, 1109, 1148, 1188, 1230, 1273, 1318, 1365,
  1413, 1462, 1514, 1567, 1598, 1622, 1655, 1679, 1713, 1738, 1773, 1799,
  1835, 1862, 1899, 1928, 1966, 1995, 2035, 2065, 2107, 2181, 2257, 2291,
  2336, 2418, 2503, 2541]

/-- `Elecraft_TONES = [0.0] + TONES + [1750.0]`, in tenths of Hz. -/
def Elecraft_TONES : List Nat := [0] ++ TONES ++ [17500]

/-- `LET = len(Elecraft_TONES)`. -/
def LET : Nat := Elecraft_TONES.length

/-- One parsed `radiomem` record: the packed bitfield struct of
`MEM_FORMAT`, each field as an unbounded natural (bitfield widths are noted
in `MEM_FORMAT`). -/
structure RadioMem where
  freq : List Nat
  vfob : List Nat
  modeb : Nat
  modea : Nat
  digimode : Nat
  b75 : Nat
  lsb : Nat
  unk : Nat
  digit : Nat
  ant : Nat
  rev : Nat
  nb : Nat
  unk0 : Nat
  pre : Nat
  unk01 : Nat
  att : Nat
  rxant : Nat
  flag3 : Nat
  split : Nat
  flag4 : Nat
  unk1 : Nat
  xv : Nat
  band : Nat
  subtone : Nat
  offset : Nat
  unk3 : Nat
  tone : Nat
  minus : Nat
  duplex : Nat
  flags : Nat
  unknown : List Nat
  label : List Nat
  comment : String
  unk4 : Nat
  unk5 : Nat
  unk6 : Nat
deriving Repr, DecidableEq

/-- The slice of the CHIRP-level memory object that `get_memory` fills in
and the claims inspect. RadioSetting extras are modelled by their current
values; `vfoaExtra`/`vfobExtra` hold the frequency in Hz whose formatted
string the setting displays. -/
structure ChirpMem where
  number : Nat
  tmode : String
  vfoaExtra : Nat
  modeaExtra : Option String
  vfobExtra : Nat
  modebExtra : Option String
  burst : Bool
  change : Bool
  empty : Bool
  freq : Nat
  mode : String
  name : String
  comment : String
deriving Repr, DecidableEq

/-- `ElecraftRadio.get_memory` (decode path): extract a CHIRP-level memory
from the radio-level record `r` for slot `number`; `mmap` is the raw image
(used for the emptiness test) and `changed` the dirty list. `none` models
the `ValueError` raised when a mode 5-tuple is not in the table. The data
branch for mode B reads `r.modea` exactly as the source does. Tone, offset
and duplex decoding is not modelled (it hinges on equality semantics of the
external bitwise library), and the branch back-filling `_mem.freq` from
`mem.freq` is unreachable (the fresh CHIRP memory's frequency is 0), so it
is omitted. -/
def get_memory (r : RadioMem) (mmap : List Nat) (changed : List Bool)
    (number : Nat) : Option ChirpMem :=
  let memFrom_mmap := (mmap.drop (number * 0x40 + 0xC00)).take 0x40
  let nl := nulr memFrom_mmap
  let a := if r.modea = 3 then
      [if r.modea = 0xf then 3 else r.modea,
       if r.digimode = 0xf then 0 else r.digimode,
       if nl then 0 else r.lsb,
       if nl then 0 else r.rev,
       if r.flag4 = 0xff then 0 else r.flag4]
    else
      [if r.modea = 0xf then 4 else r.modea, 0, 0,
       if nl then 0 else r.rev,
       if r.flag4 = 0xff then 0 else r.flag4]
  let b := if r.modeb = 3 then
      [if r.modeb = 0xf then 3 else r.modea,
       if r.digimode = 0xf then 0 else r.digimode,
       if nl then 0 else r.lsb,
       if nl then 0 else r.rev,
       if r.flag4 = 0xff then 0 else r.flag4]
    else
      [if r.modeb = 0xf then 4 else r.modeb, 0, 0,
       if nl then 0 else r.rev,
       if r.flag4 = 0xff then 0 else r.flag4]
  match mode_values.findIdx? (fun v => v == a),
        mode_values.findIdx? (fun v => v == b) with
  | some ai, some bi =>
    some { number := number,
           tmode := "Tone",
           vfoaExtra := radio_to_freq r.freq,
           modeaExtra := ALLMODES.get? ai,
           vfobExtra := radio_to_freq r.vfob,
           modebExtra := ALLMODES.get? bi,
           burst := !nl && decide (r.subtone > LET),
           change := changed.getD number false,
           empty := nl,
           freq := radio_to_freq r.freq,
           mode := ALLMODES.getD r.modea "",
           name := if r.label = FF5 then ""
             else rstripSpaces ⟨(r.label.map KX2A).take 5⟩,
           comment := rstripSpaces ⟨stripFFchar r.comment.data⟩ }
  | _, _ => none

/-- A radio record with all fields zero (synthetic test fixture). -/
def zeroMem : RadioMem :=
  { freq := List.replicate 5 0, vfob := List.replicate 5 0, modeb := 0,
    modea := 0, digimode := 0, b75 := 0, lsb := 0, unk := 0, digit := 0,
    ant := 0, rev := 0, nb := 0, unk0 := 0, pre := 0, unk01 := 0, att := 0,
    rxant := 0, flag3 := 0, split := 0, flag4 := 0, unk1 := 0, xv := 0,
    band := 0, subtone := 0, offset := 0, unk3 := 0, tone := 0, minus := 0,
    duplex := 0, flags := 0, unknown := List.replicate 9 0,
    label := List.replicate 5 0, comment := "", unk4 := 0, unk5 := 0,
    unk6 := 0 }

/-- Label bytes decoding to "TEST " under the `KX2A` charset table. -/
def c1_label : List Nat := [20, 5, 19, 20, 0]

/-- The synthetic 64-byte slot-0 window of claim C1: frequency bytes
[14,07,45,00,00], mode byte 0x02 (mode-A nibble 2), label at its record
offset, everything else zero. -/
def c1_window : List Nat :=
  [14, 7, 45, 0, 0] ++ List.replicate 5 0 ++ [0x02] ++
  List.replicate 21 0 ++ c1_label ++ List.replicate 27 0

/-- The synthetic parsed record of claim C1. -/
def c1_radiomem : RadioMem :=
  { zeroMem with freq := [14, 7, 45, 0, 0], modea := 2, label := c1_label }

/-- A memory image holding `c1_window` at slot 0 (address 0x0C00). -/
def c1_mmap : List Nat := List.replicate 0xC00 0 ++ c1_window

set_option maxRecDepth 100000 in
/-- Claim C1 (code bug): decoding the synthetic record yields frequency
14074500 Hz and name "TEST" as claimed, but the returned memory's mode is
"AM-S/LSB", not "USB": the code indexes the mode-name list by the raw mode
nibble (`ALLMODES[_mem.modea]`) instead of decoding the record's 5-tuple
through the table. The same call's table decode of that 5-tuple — the
'Mode A' extra setting — is "USB", and `set_memory` writes nibble 2
precisely for "USB", so the nibble indexing is a slip. -/
theorem c1_get_memory_eval :
    (get_memory c1_radiomem c1_mmap (List.replicate 200 false) 0).map
        (fun m => (m.freq, m.name, m.mode, m.modeaExtra, m.empty)) =
      some (14074500, "TEST", "AM-S/LSB", some "USB", false) ∧
    "AM-S/LSB" ≠ "USB" := by
  refine ⟨by decide, by decide⟩

/-- Python `str.ljust`: pad on the right with spaces to the given width. -/
def strLjust (s : String) (n : Nat) : String :=
  s ++ ⟨List.replicate (n - s.data.length) ' '⟩

/-- `ElecraftRadio.blank_mem`: set every field of a record to its
erase-sentinel value (0xFF for bytes, all-ones for packed subranges). -/
def blank_mem (m : RadioMem) : RadioMem :=
  { m with
    freq := FF5, vfob := FF5, modeb := 0x0f, modea := 0x0f,
    digimode := 0x0f, b75 := 1, lsb := 1, unk := 1, digit := 1, ant := 1,
    rev := 1, nb := 1, unk0 := 1, pre := 1, unk01 := 3, att := 1,
    rxant := 1, flag3 := 0x3f, split := 1, flag4 := 0xff, unk1 := 7,
    xv := 1, band := 0x0f, subtone := 0xff, offset := 0xff, unk3 := 0x1f,
    tone := 1, minus := 1, duplex := 1, flags := 0xffffffff,
    unknown := FF5 ++ FF5.dropLast, label := List.replicate 5 0xff,
    comment := ⟨List.replicate 24 (Char.ofNat 255)⟩, unk4 := 0xff,
    unk5 := 0xff, unk6 := 0xff }

/-- The CHIRP-level memory value passed into `set_memory`; extras are
modelled by their values, the VFO extras already parsed to Hz (parsing the
displayed string is `chirp_common.parse_freq`, outside src/). `rtone` is in
tenths of Hz to match `Elecraft_TONES`. -/
structure ChirpInMem where
  number : Nat
  empty : Bool
  freq : Nat
  name : String
  rtone : Nat
  duplex : String
  offset : Nat
  comment : String
  extra_vfoa : Nat
  extra_modea : String
  extra_vfob : Nat
  extra_modeb : String
  extra_burst : Bool
deriving Repr, DecidableEq

/-- The record-update half of `set_memory` (everything between the empty
check and the final dirty-flag assignment). `none` models the exceptions of
the dict/list lookups (`ALLMODESd[...]`, `Elecraft_TONES.index`); on those
paths the source leaves the dirty flag untouched, which the caller
reproduces by mapping over this option. -/
def build_record (rmem : RadioMem) (m : ChirpInMem) : Option RadioMem :=
  let fbytes := if m.freq ≠ 0 ∧ rmem.freq = FF5 then freq_to_radio m.freq
    else freq_to_radio m.extra_vfoa
  match ALLMODESd.lookup m.extra_modea, ALLMODESd.lookup m.extra_modeb with
  | some [ma, da, la, ra, fa], some [mb, db, lb, rb, fb] =>
    match (if m.extra_burst then some (LET + 1)
           else Elecraft_TONES.findIdx? (fun t => t == m.rtone)) with
    | none => none
    | some st =>
      let useB := mb = 3 ∧ ma ≠ 3
      let mo := m.offset / OSTEP
      some { rmem with
        freq := fbytes,
        modea := ma,
        digimode := if useB then db else da,
        lsb := if useB then lb else la,
        rev := if useB then rb else ra,
        flag4 := if useB then fb else fa,
        vfob := freq_to_radio m.extra_vfob,
        modeb := mb,
        label := ((strLjust m.name 5).data.take 5).map A2KX,
        subtone := st,
        offset := if mo > LOFFSET then 0 else mo,
        minus := if m.duplex = "-" then 1 else 0,
        comment := ⟨(strLjust m.comment 24).data.take 24⟩ }
  | _, _ => none

/-- `ElecraftRadio.set_memory`: store a CHIRP-level memory into the radio
record and dirty list. An empty CHIRP memory blanks the record and returns
at once — before the dirty-flag assignment; otherwise the record is rebuilt
and `Changed[number]` is set to true. The guard clauses for a missing
`_memobj`/`radiomem`/`extra` are moot here because the model receives the
record directly. -/
def set_memory (changed : List Bool) (rmem : RadioMem) (m : ChirpInMem) :
    Option (RadioMem × List Bool) :=
  if m.empty then some (blank_mem rmem, changed)
  else (build_record rmem m).map (fun r2 => (r2, changed.set m.number true))

/-- `List.set` hits the targeted index (helper). -/
theorem get?_set_self {α : Type} :
    ∀ (l : List α) (i : Nat) (b : α), i < l.length →
      (l.set i b).get? i = some b := by
  intro l
  induction l with
  | nil => intro i b h; simp at h
  | cons x xs ih =>
    intro i b h
    cases i with
    | zero => rfl
    | succ j =>
      simp only [List.set, List.get?]
      exact ih j b (by simpa using h)

/-- `List.set` leaves other indices alone (helper). -/
theorem get?_set_other {α : Type} :
    ∀ (l : List α) (i j : Nat) (b : α), i ≠ j →
      (l.set i b).get? j = l.get? j := by
  intro l
  induction l with
  | nil => intro i j b _; simp [List.set]
  | cons x xs ih =>
    intro i j b hij
    cases i with
    | zero =>
      cases j with
      | zero => exact absurd rfl hij
      | succ k => rfl
    | succ i2 =>
      cases j with
      | zero => rfl
      | succ k => exact ih i2 k b (fun hc => hij (by rw [hc]))

/-- A non-empty CHIRP memory targeting slot 7 with valid modes and tone
(test fixture for C6). -/
def c6_mem : ChirpInMem :=
  { number := 7, empty := false, freq := 14074500, name := "TEST",
    rtone := 0, duplex := "", offset := 0, comment := "",
    extra_vfoa := 14074500, extra_modea := "USB", extra_vfob := 7074000,
    extra_modeb := "LSB", extra_burst := false }

/-- An empty (deleted) CHIRP memory targeting slot 7 (test fixture for the
C6 counterexample). -/
def c6_mem_empty : ChirpInMem := { c6_mem with empty := true }

/-- Counterexample to claim C6: a write of an empty/deleted memory on slot 7
returns before the dirty-flag assignment, so `Changed[7]` stays false — the
claim demands it be true for every non-error write, empty ones included. -/
theorem c6_claim_counterexample :
    ¬ ((set_memory (List.replicate 200 false) zeroMem c6_mem_empty).map
        (fun r => r.2.getD 7 false) = some true) := by
  decide

/-- Claim C6 as amended: for every non-error, NON-empty channel write,
`Changed[number]` is set true and every other entry of the dirty list is
unchanged; a write of an empty/deleted memory blanks the record but returns
the dirty list unchanged. -/
theorem c6_set_memory_amended (changed : List Bool) (rmem : RadioMem)
    (m : ChirpInMem) :
    (m.empty = true → set_memory changed rmem m = some (blank_mem rmem, changed)) ∧
    (∀ rm2 ch2, m.empty = false → m.number < changed.length →
      set_memory changed rmem m = some (rm2, ch2) →
      ch2.get? m.number = some true ∧
      ∀ i, i ≠ m.number → ch2.get? i = changed.get? i) := by
  constructor
  · intro he
    simp [set_memory, he]
  · intro rm2 ch2 he hn hs
    simp only [set_memory, he, Bool.false_eq_true, if_false, Option.map_eq_some'] at hs
    obtain ⟨r2, _, heq⟩ := hs
    have hch : ch2 = changed.set m.number true := (Prod.mk.injEq _ _ _ _ ▸ heq).2.symm
    subst hch
    exact ⟨get?_set_self changed m.number true hn,
           fun i hi => get?_set_other changed m.number i true (fun hc => hi hc.symm)⟩

set_option maxRecDepth 10000 in
/-- Witness for the amended C6: a concrete non-empty write to slot 7
succeeds, sets `Changed[7]` and leaves `Changed[3]` alone. -/
theorem c6_set_memory_amended_witness :
    c6_mem.empty = false ∧ c6_mem.number < (List.replicate 200 false).length ∧
    ((set_memory (List.replicate 200 false) zeroMem c6_mem).map
        (fun r => (r.2.get? 7, r.2.get? 3)) = some (some true, some false)) := by
  refine ⟨rfl, by decide, ?_⟩
  rcases hs : set_memory (List.replicate 200 false) zeroMem c6_mem with _ | ⟨rm2, ch2⟩
  · exact absurd hs (by decide)
  · obtain ⟨h7, hother⟩ :=
      (c6_set_memory_amended (List.replicate 200 false) zeroMem c6_mem).2
        rm2 ch2 rfl (by decide) hs
    have h3 := hother 3 (by decide)
    have h7b : ch2.get? 7 = some true := h7
    have h3b : ch2.get? 3 = some false := by rw [h3]; decide
    simp only [Option.map_some']
    rw [h7b, h3b]

/-- The payload slice of a read response: the source takes hex characters
`[8:-2]` of the response line — the 4 echoed header bytes are dropped and
the trailing checksum byte removed (responses are modelled as already
hex-decoded byte lists). -/
def response_payload (r : List Nat) : List Nat := (r.drop 4).dropLast

/-- Window-index filter of `sync_in`: only the first NMEMS regular slots
and the NSPLS special slots are requested. -/
def window_requested (idx : Nat) : Bool :=
  decide (idx < NMEMS ∨ (99 < idx ∧ idx ≤ 99 + NSPLS))

/-- One `sync_in` loop step: append the payload of the window's response
when the window is requested, with no validation of any kind. -/
def sync_in_step (resp : Nat → List Nat) (data : List Nat) (idx : Nat) :
    List Nat :=
  if window_requested idx then
    data ++ response_payload (resp (MINMEM + idx * MEMLEN))
  else data

/-- The number of windows `range(MINMEM, MAXMEM, MEMLEN)` iterates (261). -/
def NWINDOWS : Nat := (MAXMEM - MINMEM) / MEMLEN

/-- `sync_in`'s `_data` accumulation over all windows. -/
def sync_in_data (resp : Nat → List Nat) : List Nat :=
  (List.range NWINDOWS).foldl (sync_in_step resp) []

/-- The session state `sync_in` touches: the memory image `_mmap` and the
dirty list `Changed`. -/
structure SyncState where
  mmap : List Nat
  changed : List Bool
deriving Repr, DecidableEq

/-- `ElecraftRadio.sync_in`: read every requested window from the transport
`resp` (address to response bytes), concatenate the payload slices, replace
`_mmap` with the result and reset the dirty list (`process_mmap`). The
source validates nothing in the loop, so no path can signal `SyncError`,
and the prior state never survives. -/
def sync_in (resp : Nat → List Nat) (_st : SyncState) : SyncState :=
  { mmap := sync_in_data resp, changed := List.replicate 200 false }

/-- Modelled from the spec: `parseResponse`'s checksum validation
(`ChecksumMismatch`) is described in the spec but absent from the driver,
so the validity of a response is stated here as a predicate — the trailing
response byte must equal the driver's checksum formula over the preceding
bytes. -/
def response_checksum_ok (r : List Nat) : Bool :=
  r.getLast? == some (cmd_checksum r.dropLast)

/-- A transport whose every response carries an incorrect trailing
checksum: 4 echoed header bytes, a 2-byte payload [5, 5], and checksum
byte 9 where the formula demands 0xf6. -/
def c2_bad_resp : Nat → List Nat := fun _ => [0, 0, 0, 0, 5, 5, 9]

/-- A prior session state with a distinguishable image. -/
def c2_prior : SyncState := ⟨[1, 2, 3], List.replicate 200 false⟩

set_option maxRecDepth 40000 in
/-- Counterexample to claim C2: every response of `c2_bad_resp` — window
3's included — fails the checksum validation, yet `sync_in` aborts nothing:
it replaces the previously-held image with the 400 bytes assembled from the
corrupt payloads. -/
theorem c2_claim_counterexample :
    response_checksum_ok (c2_bad_resp (MINMEM + 3 * MEMLEN)) = false ∧
    (sync_in c2_bad_resp c2_prior).mmap = List.replicate 400 5 ∧
    (sync_in c2_bad_resp c2_prior).mmap ≠ c2_prior.mmap := by
  refine ⟨by decide, by decide, by decide⟩

/-- `sync_in`'s fold is the concatenation of the requested windows' payload
slices (helper). -/
theorem sync_in_data_eq (resp : Nat → List Nat) :
    ∀ (l : List Nat) (acc : List Nat),
      l.foldl (sync_in_step resp) acc =
        acc ++ ((l.filter window_requested).map
          (fun idx => response_payload (resp (MINMEM + idx * MEMLEN)))).flatten := by
  intro l
  induction l with
  | nil => intro acc; simp
  | cons x xs ih =>
    intro acc
    by_cases hx : window_requested x = true
    · rw [List.foldl_cons, List.filter_cons_of_pos hx, List.map_cons,
        List.flatten_cons, show sync_in_step resp acc x =
          acc ++ response_payload (resp (MINMEM + x * MEMLEN)) from
          by simp [sync_in_step, hx], ih, List.append_assoc]
    · rw [List.foldl_cons, List.filter_cons_of_neg (by simpa using hx),
        show sync_in_step resp acc x = acc from
          by simp [sync_in_step, hx], ih]

/-- Claim C2 as amended: `sync_in` performs no checksum or framing
validation and never aborts — even when window 3's response fails the
checksum check, it replaces the previously-held MemoryImage with the
concatenation of every requested window's payload slice (corrupt ones
included) and resets the whole dirty list; no `SyncError` path exists. -/
theorem c2_sync_in_amended (resp : Nat → List Nat) (st : SyncState)
    (_hbad : response_checksum_ok (resp (MINMEM + 3 * MEMLEN)) = false) :
    (sync_in resp st).mmap =
      (((List.range NWINDOWS).filter window_requested).map
        (fun idx => response_payload (resp (MINMEM + idx * MEMLEN)))).flatten ∧
    (sync_in resp st).changed = List.replicate 200 false := by
  refine ⟨?_, rfl⟩
  show sync_in_data resp = _
  rw [sync_in_data, sync_in_data_eq resp (List.range NWINDOWS) []]
  rfl

set_option maxRecDepth 400000 in
/-- Witness for the amended C2 at the corrupt transport and prior state. -/
theorem c2_sync_in_amended_witness :
    response_checksum_ok (c2_bad_resp (MINMEM + 3 * MEMLEN)) = false ∧
    ((sync_in c2_bad_resp c2_prior).mmap =
      (((List.range NWINDOWS).filter window_requested).map
        (fun idx => response_payload (c2_bad_resp (MINMEM + idx * MEMLEN)))).flatten ∧
     (sync_in c2_bad_resp c2_prior).changed = List.replicate 200 false) :=
  ⟨by decide, c2_sync_in_amended c2_bad_resp c2_prior (by decide)⟩

/-- The write-command line `sync_out` builds and prints for a dirty slot
(the serial write itself is commented out in the source, a dry run): hex
address, hex length, hex payload, then the checksum rendered in decimal
exactly as the print's f-string does. -/
def sync_out_cmd (mmap : List Nat) (i : Nat) : String :=
  let addr := MEM_START + i * MEMLEN
  let data := (mmap.drop addr).take 0x40
  let cmd := hex04 addr ++ hex02 0x40 ++ String.join (data.map hex02)
  let csum := sync_checksum (cmd ++ "00")
  "sync_out[" ++ toString i ++ "=ER" ++ cmd ++ toString csum

/-- Result of a `sync_out` run: the command lines built, the final dirty
list, and whether the run died with an `IndexError` on the dirty-list
access. Mutations made before the error persist, as they do on the Python
object when the exception propagates. -/
structure SyncOutResult where
  cmds : List String
  changed : List Bool
  err : Bool
deriving Repr, DecidableEq

/-- The `sync_out` loop over the remaining slot indices: skip clean slots,
build a command and clear the flag for dirty ones, abort with an error
when the dirty-list access is out of bounds. -/
def sync_out_go (mmap : List Nat) :
    List Nat → List String → List Bool → SyncOutResult
  | [], cmds, ch => ⟨cmds, ch, false⟩
  | i :: rest, cmds, ch =>
    match ch.get? i with
    | none => ⟨cmds, ch, true⟩
    | some b =>
      if b then
        sync_out_go mmap rest (cmds ++ [sync_out_cmd mmap i]) (ch.set i false)
      else
        sync_out_go mmap rest cmds ch

/-- `ElecraftRadio.sync_out`: iterate the addresses
`range(MEM_START, MAXMEM, MEMLEN)` — slot indices 0 through
`(MAXMEM - MEM_START) / MEMLEN - 1` — against the dirty list. -/
def sync_out (mmap : List Nat) (ch : List Bool) : SyncOutResult :=
  sync_out_go mmap (List.range ((MAXMEM - MEM_START) / MEMLEN)) [] ch

/-- In-bounds `get?` returns the `getD` value (helper). -/
theorem get?_eq_getD_of_lt {α : Type} :
    ∀ (l : List α) (i : Nat) (d : α), i < l.length →
      l.get? i = some (l.getD i d) := by
  intro l
  induction l with
  | nil => intro i d h; simp at h
  | cons x xs ih =>
    intro i d h
    cases i with
    | zero => rfl
    | succ j => exact ih j d (by simpa using h)

/-- Setting an entry to the value it already holds is the identity
(helper). -/
theorem set_get_id {α : Type} :
    ∀ (l : List α) (i : Nat) (a : α), l.get? i = some a → l.set i a = l := by
  intro l
  induction l with
  | nil => intro i a h; simp [List.get?] at h
  | cons x xs ih =>
    intro i a h
    cases i with
    | zero =>
      simp only [List.get?, Option.some.injEq] at h
      simp [List.set, h]
    | succ j =>
      simp only [List.get?] at h
      simp only [List.set, List.cons.injEq, true_and]
      exact ih j a h

/-- `getD` ignores a `set` at a different index (helper). -/
theorem getD_set_other {α : Type} :
    ∀ (l : List α) (i j : Nat) (b d : α), i ≠ j →
      (l.set i b).getD j d = l.getD j d := by
  intro l
  induction l with
  | nil => intro i j b d _; simp [List.set]
  | cons x xs ih =>
    intro i j b d hij
    cases i with
    | zero =>
      cases j with
      | zero => exact absurd rfl hij
      | succ k => rfl
    | succ i2 =>
      cases j with
      | zero => rfl
      | succ k => exact ih i2 k b d (fun hc => hij (by rw [hc]))

/-- Clearing flags with a fold preserves the list length (helper). -/
theorem foldl_set_false_length :
    ∀ (l : List Nat) (ch : List Bool),
      (l.foldl (fun c i => c.set i false) ch).length = ch.length := by
  intro l
  induction l with
  | nil => intro ch; rfl
  | cons i rest ih =>
    intro ch
    rw [List.foldl_cons, ih, List.length_set]

/-- After clearing every index of `l`, an index reads false iff it was
cleared in bounds; everything else is untouched (helper). -/
theorem foldl_set_false_get? :
    ∀ (l : List Nat) (ch : List Bool) (j : Nat),
      (l.foldl (fun c i => c.set i false) ch).get? j =
        if j ∈ l ∧ j < ch.length then some false else ch.get? j := by
  intro l
  induction l with
  | nil => intro ch j; simp
  | cons i rest ih =>
    intro ch j
    rw [List.foldl_cons, ih, List.length_set]
    by_cases hrest : j ∈ rest ∧ j < ch.length
    · rw [if_pos hrest, if_pos ⟨List.mem_cons_of_mem i hrest.1, hrest.2⟩]
    · rw [if_neg hrest]
      by_cases hji : j = i
      · subst hji
        by_cases hlen : j < ch.length
        · rw [if_pos ⟨List.mem_cons_self j rest, hlen⟩]
          exact get?_set_self ch j false hlen
        · rw [if_neg (fun hc => hlen hc.2)]
          have h1 : (ch.set j false).get? j = none :=
            List.get?_eq_none.mpr (by rw [List.length_set]; omega)
          have h2 : ch.get? j = none := List.get?_eq_none.mpr (by omega)
          rw [h1, h2]
      · have hmem : ¬(j ∈ i :: rest ∧ j < ch.length) := by
          intro hc
          rcases List.mem_cons.mp hc.1 with h | h
          · exact hji h
          · exact hrest ⟨h, hc.2⟩
        rw [if_neg hmem]
        exact get?_set_other ch i j false (fun hc => hji hc.symm)

/-- Processing a block of in-bounds, duplicate-free indices accumulates one
command per dirty slot, clears exactly those flags, and continues with the
rest (helper). -/
theorem sync_out_go_append (mmap : List Nat) :
    ∀ (a b : List Nat) (cmds : List String) (ch : List Bool),
      (∀ i ∈ a, i < ch.length) → a.Nodup →
      sync_out_go mmap (a ++ b) cmds ch =
        sync_out_go mmap b
          (cmds ++ (a.filter (fun i => ch.getD i false)).map (sync_out_cmd mmap))
          (a.foldl (fun c i => c.set i false) ch) := by
  intro a
  induction a with
  | nil => intro b cmds ch _ _; simp
  | cons i rest ih =>
    intro b cmds ch hin hnd
    have hi : i < ch.length := hin i (List.mem_cons_self i rest)
    have hget : ch.get? i = some (ch.getD i false) :=
      get?_eq_getD_of_lt ch i false hi
    have hnd2 : rest.Nodup := (List.nodup_cons.mp hnd).2
    have hni : i ∉ rest := (List.nodup_cons.mp hnd).1
    rw [List.cons_append]
    show sync_out_go mmap (i :: (rest ++ b)) cmds ch = _
    rw [sync_out_go, hget]
    by_cases hb : ch.getD i false = true
    · rw [hb]
      simp only [if_true]
      rw [ih b (cmds ++ [sync_out_cmd mmap i]) (ch.set i false)
        (fun x hx => by rw [List.length_set]; exact hin x (List.mem_cons_of_mem i hx))
        hnd2]
      rw [List.filter_cons_of_pos (by simpa using hb), List.map_cons,
        List.foldl_cons]
      have hfc : rest.filter (fun j => (ch.set i false).getD j false) =
          rest.filter (fun j => ch.getD j false) := by
        apply List.filter_congr
        intro x hx
        rw [getD_set_other ch i x false false (fun hc => hni (hc ▸ hx))]
      rw [hfc, List.append_assoc]
      rfl
    · rw [Bool.not_eq_true] at hb
      rw [hb]
      simp only [Bool.false_eq_true, if_false]
      rw [ih b cmds ch (fun x hx => hin x (List.mem_cons_of_mem i hx)) hnd2]
      rw [List.filter_cons_of_neg (by simpa using hb), List.foldl_cons]
      rw [set_get_id ch i false (by rw [hget, hb])]

/-- The split of `sync_out`'s index range into the 200 in-bounds slots and
the out-of-bounds tail 200..212 (helper). -/
theorem sync_out_range_split :
    List.range ((MAXMEM - MEM_START) / MEMLEN) =
      List.range 200 ++ (200 :: (List.range 12).map (fun k => 201 + k)) := by
  decide

/-- A full `sync_out` run on a 200-entry dirty list: commands for exactly
the dirty slots among 0..199, all 200 flags cleared, and the run ends in
the out-of-bounds error at index 200 (helper). -/
theorem sync_out_run (mmap : List Nat) (ch : List Bool)
    (h : ch.length = 200) :
    sync_out mmap ch =
      ⟨((List.range 200).filter (fun i => ch.getD i false)).map (sync_out_cmd mmap),
       (List.range 200).foldl (fun c i => c.set i false) ch,
       true⟩ := by
  rw [sync_out, sync_out_range_split,
    sync_out_go_append mmap (List.range 200) _ [] ch
      (fun i hi => by rw [h]; exact List.mem_range.mp hi) (List.nodup_range 200)]
  have hnone : ((List.range 200).foldl (fun c i => c.set i false) ch).get? 200 = none :=
    List.get?_eq_none.mpr (by rw [foldl_set_false_length, h])
  rw [sync_out_go, hnone]
  rfl

/-- Command-list projection of `sync_out_run` (helper). -/
theorem sync_out_run_cmds (mmap : List Nat) (ch : List Bool)
    (h : ch.length = 200) :
    (sync_out mmap ch).cmds =
      ((List.range 200).filter (fun i => ch.getD i false)).map (sync_out_cmd mmap) := by
  rw [sync_out_run mmap ch h]

/-- Dirty-list projection of `sync_out_run` (helper). -/
theorem sync_out_run_changed (mmap : List Nat) (ch : List Bool)
    (h : ch.length = 200) :
    (sync_out mmap ch).changed =
      (List.range 200).foldl (fun c i => c.set i false) ch := by
  rw [sync_out_run mmap ch h]

/-- Error projection of `sync_out_run` (helper). -/
theorem sync_out_run_err (mmap : List Nat) (ch : List Bool)
    (h : ch.length = 200) :
    (sync_out mmap ch).err = true := by
  rw [sync_out_run mmap ch h]

/-- Claim C7: for every 200-entry dirty-list state, `sync_out` builds a
write command exactly for the slots whose dirty flag is true — clean slots
produce no command — and after the run every slot's flag reads false,
independent of any device acknowledgement (the transmission line is
commented out; the command is built and printed). -/
theorem c7_sync_out_dirty_only (mmap : List Nat) (ch : List Bool)
    (h : ch.length = 200) :
    (sync_out mmap ch).cmds =
      ((List.range 200).filter (fun i => ch.getD i false)).map (sync_out_cmd mmap) ∧
    ∀ j, j < 200 → (sync_out mmap ch).changed.get? j = some false := by
  refine ⟨sync_out_run_cmds mmap ch h, ?_⟩
  intro j hj
  rewrite [sync_out_run_changed mmap ch h, foldl_set_false_get?]
  rewrite [if_pos ⟨List.mem_range.mpr hj, by omega⟩]
  rfl

/-- A dirty list with only slot 7 marked (test fixture). -/
def c7_dirty : List Bool := (List.replicate 200 false).set 7 true

/-- Witness for C7: with only slot 7 dirty, the run builds exactly the
filtered command list and clears slot 7. -/
theorem c7_sync_out_dirty_only_witness :
    c7_dirty.length = 200 ∧
    (sync_out [] c7_dirty).cmds =
      ((List.range 200).filter (fun i => c7_dirty.getD i false)).map (sync_out_cmd []) ∧
    (sync_out [] c7_dirty).changed.get? 7 = some false :=
  ⟨by decide, (c7_sync_out_dirty_only [] c7_dirty (by decide)).1,
   (c7_sync_out_dirty_only [] c7_dirty (by decide)).2 7 (by decide)⟩

/-- Claim C10: `sync_out` iterates 213 slot indices (addresses 0x0C00 to
0x4140 in 0x40 steps) over the 200-entry dirty list, so every call reads
`Changed[200]` out of bounds and dies with an `IndexError` instead of
completing. -/
theorem c10_sync_out_index_error (mmap : List Nat) (ch : List Bool)
    (h : ch.length = 200) :
    (MAXMEM - MEM_START) / MEMLEN = 213 ∧ (sync_out mmap ch).err = true := by
  exact ⟨by decide, sync_out_run_err mmap ch h⟩

/-- Witness for C10 at the all-clean 200-entry dirty list. -/
theorem c10_sync_out_index_error_witness :
    (List.replicate 200 false).length = 200 ∧
    ((MAXMEM - MEM_START) / MEMLEN = 213 ∧
     (sync_out [] (List.replicate 200 false)).err = true) :=
  ⟨by decide, c10_sync_out_index_error [] (List.replicate 200 false) (by decide)⟩

/-- The fixed candidate baud-rate list of `get_id`. -/
def bauds : List Nat := [4800, 9600, 19200, 38400, 57600, 115200]

/-- The probing order of `get_id`: remove the most recently successful rate
from the ascending list, append it at the end, and iterate the list
reversed — the remembered rate first, then the rest descending. -/
def get_id_bauds (last : Nat) : List Nat := (bauds.erase last ++ [last]).reverse

/-- `RADIO_IDS`: the numeric-identification lookup table. -/
def RADIO_IDS : List (String × String) :=
  [("ID017", "Elecraft"), ("ID017X", "K3"), ("ID0171", "KX2"),
   ("ID0172", "KX3"), ("ID0174", "K4")]

/-- The replies a probed port gives at each baud rate: the first
identification reply, the reply to the retried identification command, and
the reply to the extra-info query. -/
structure Port where
  idResp : Nat → String
  idRetry : Nat → String
  omResp : Nat → String

/-- Python `resp.split(" ")[1]` (always guarded by a space-containment
check in the source). -/
def split_second (s : String) : String := (s.splitOn " ").getD 1 ""

/-- The last `n` characters of a string (Python `s[-n:]`). -/
def lastChars (n : Nat) (s : String) : String := ⟨(s.data.reverse.take n).reverse⟩

/-- One probe attempt of `get_id` at a single baud rate: a space-separated
reply identifies the device directly; an error marker causes one retry at
the same rate; a reply from the numeric-ID table triggers the extra-info
query and the trailing-pattern mapping back into `RADIO_IDS`. `none` means
this rate failed. -/
def try_baud (p : Port) (b : Nat) : Option String :=
  let resp := p.idResp b
  if resp.data.contains ' ' then some (split_second resp)
  else
    let resp2 := if resp.data.contains '?' then p.idRetry b else resp
    if resp.data.contains '?' && resp2.data.contains ' ' then
      some (split_second resp2)
    else if (RADIO_IDS.lookup resp2).isSome then
      let xt := p.omResp b
      let resp3 := if lastChars 4 xt = "4---" then "ID0174"
        else if lastChars 2 xt = "--" then "ID017X"
        else if lastChars 2 xt = "01" then "ID0171"
        else if lastChars 2 xt = "02" then "ID0172"
        else resp2
      some ((RADIO_IDS.lookup resp3).getD "")
    else none

/-- The probing loop of `get_id`; a run that exhausts every candidate rate
raises `RadioError('No response from radio')`. -/
def get_id_go (p : Port) : List Nat → Except String String
  | [] => .error "No response from radio"
  | b :: rest =>
    match try_baud p b with
    | some m => .ok m
    | none => get_id_go p rest

/-- `get_id`: probe the candidate rates in the remembered-first, then
descending order. The single delimiter candidate makes the outer loop of
the source trivial. -/
def get_id (p : Port) (last : Nat) : Except String String :=
  get_id_go p (get_id_bauds last)

/-- A port that never identifies: all-silent replies (helper fixture). -/
def quiet_port : Port := ⟨fun _ => "", fun _ => "", fun _ => ""⟩

/-- An unidentifying reply fails its probe attempt (helper). -/
theorem get_id_go_fail (p : Port) :
    ∀ (l : List Nat),
      (∀ b ∈ l, (p.idResp b).data.contains ' ' = false ∧
        (p.idResp b).data.contains '?' = false ∧
        RADIO_IDS.lookup (p.idResp b) = none) →
      get_id_go p l = Except.error "No response from radio" := by
  intro l
  induction l with
  | nil => intro _; rfl
  | cons b rest ih =>
    intro h
    obtain ⟨h1, h2, h3⟩ := h b (List.mem_cons_self b rest)
    have htb : try_baud p b = none := by
      simp only [try_baud, h1, h2, h3, Bool.false_eq_true, if_false,
        Bool.false_and, Option.isSome_none]
    rw [get_id_go, htb]
    exact ih (fun x hx => h x (List.mem_cons_of_mem b hx))

/-- Claim C9: `get_id` probes the most-recently-successful rate first and
then the remaining candidates of {4800, 9600, 19200, 38400, 57600, 115200}
in descending order; when every reply fails to identify the device (no
space, no error marker, not a numeric ID), it reports the no-response radio
error instead of a model. -/
theorem c9_get_id_order_and_exhaust (p : Port) (last : Nat)
    (hl : last ∈ bauds)
    (hresp : ∀ b ∈ get_id_bauds last,
      (p.idResp b).data.contains ' ' = false ∧
      (p.idResp b).data.contains '?' = false ∧
      RADIO_IDS.lookup (p.idResp b) = none) :
    get_id_bauds last =
      last :: ([115200, 57600, 38400, 19200, 9600, 4800].filter (fun b => b ≠ last)) ∧
    get_id p last = Except.error "No response from radio" := by
  constructor
  · fin_cases hl <;> decide
  · exact get_id_go_fail p (get_id_bauds last) hresp

/-- Witness for C9: the silent port at remembered rate 38400. -/
theorem c9_get_id_order_and_exhaust_witness :
    38400 ∈ bauds ∧
    (get_id_bauds 38400 =
      38400 :: ([115200, 57600, 38400, 19200, 9600, 4800].filter (fun b => b ≠ 38400)) ∧
     get_id quiet_port 38400 = Except.error "No response from radio") :=
  ⟨by decide, c9_get_id_order_and_exhaust quiet_port 38400 (by decide)
    (fun b _ => by
      show ("" : String).data.contains ' ' = false ∧
        ("" : String).data.contains '?' = false ∧
        RADIO_IDS.lookup "" = none
      exact ⟨by decide, by decide, by decide⟩)⟩

end Elecraft
